import Mathlib

/-!
Shallow embedding of the Ernie45 reasoning parser
(src/vllm/reasoning/ernie45_reasoning_parser.py).

Text is modelled as List Char; Python string primitives (find, rfind,
partition, slicing with possibly negative indices, lstrip) are embedded
below with Python semantics (find returns -1 on a miss, slices clamp).
Token ids are Nat; optional sentinel ids (markers that may be absent from
the vocabulary) are Option Nat, mirroring vocab.get returning None.
-/

namespace Ernie45

/-- Tests whether the pattern occurs literally at the head of the string. -/
def litAt : List Char → List Char → Bool
  | [], _ => true
  | _ :: _, [] => false
  | p :: ps, c :: cs => p == c && litAt ps cs

/-- Index of the first occurrence of a pattern, if any (Python str.find,
with the found case). An empty pattern matches at index 0. -/
def findSub (pat : List Char) : List Char → Option Nat
  | [] => if pat.isEmpty then some 0 else none
  | c :: t => if litAt pat (c :: t) then some 0 else (findSub pat t).map (· + 1)

/-- Index of the last occurrence of a pattern, if any (Python str.rfind,
with the found case). -/
def rfindSub (pat : List Char) (s : List Char) : Option Nat :=
  ((List.range (s.length + 1)).filter (fun i => litAt pat (s.drop i))).getLast?

/-- Python str.find: first index of the pattern, or -1. -/
def pyFind (pat s : List Char) : Int :=
  match findSub pat s with
  | some i => (i : Int)
  | none => -1

/-- Python str.rfind: last index of the pattern, or -1. -/
def pyRFind (pat s : List Char) : Int :=
  match rfindSub pat s with
  | some i => (i : Int)
  | none => -1

/-- Resolves a Python slice index against a length: negative indices count
from the end and clamp at 0. -/
def pyIdx (n : Nat) (i : Int) : Nat :=
  if 0 ≤ i then i.toNat else ((n : Int) + i).toNat

/-- Python two-sided slice s[a:b]. -/
def pySlice (s : List Char) (a b : Int) : List Char :=
  (s.take (pyIdx s.length b)).drop (pyIdx s.length a)

/-- Python slice s[a:]. -/
def pySliceFrom (s : List Char) (a : Int) : List Char :=
  s.drop (pyIdx s.length a)

/-- Python slice s[:b]. -/
def pySliceTo (s : List Char) (b : Int) : List Char :=
  s.take (pyIdx s.length b)

/-- Python str.partition: split at the first occurrence of the separator,
returning (before, found?, after). -/
def pyPartition (pat s : List Char) : List Char × Bool × List Char :=
  match findSub pat s with
  | some i => (s.take i, true, s.drop (i + pat.length))
  | none => (s, false, [])

/-- Python str.lstrip("\n"): remove all leading newline characters. -/
def lstripNl : List Char → List Char
  | '\n' :: t => lstripNl t
  | s => s

/-- Collapses an empty string to absence: Python `content if content else None`. -/
def collapse (s : List Char) : Option (List Char) :=
  if s.isEmpty then none else some s

-- The fixed sentinel marker strings (class attributes of Ernie45ReasoningParser).

def think_start_token : String := "<think>"
def think_end_token : String := "</think>"
def response_start_token : String := "<response>"
def response_end_token : String := "</response>"
def tool_call_start_token : String := "<tool_call>"
def tool_call_end_token : String := "</tool_call>"
def newline_token : String := "<0x0A>"

def thinkStartTok : List Char := think_start_token.toList
def thinkEndTok : List Char := think_end_token.toList
def responseStartTok : List Char := response_start_token.toList
def responseEndTok : List Char := response_end_token.toList

/-- Python `pat in s` substring test. -/
def containsSub (pat s : List Char) : Bool :=
  (findSub pat s).isSome

end Ernie45

namespace Ernie45

/-- The parser's resolved sentinel token ids. think start/end are mandatory
(construction fails otherwise); the rest mirror vocab.get and may be None. -/
structure Ernie45Parser where
  think_start_token_id : Nat
  think_end_token_id : Nat
  response_start_token_id : Option Nat
  response_end_token_id : Option Nat
  tool_call_start_token_id : Option Nat
  tool_call_end_token_id : Option Nat
  newline_token_id : Option Nat
deriving DecidableEq

/-- Constructor body of Ernie45ReasoningParser.__init__: resolve the seven
marker strings against the vocabulary; fail iff think start/end is missing. -/
def ernieInit (vocab : String → Option Nat) : Except String Ernie45Parser :=
  let ts := vocab think_start_token
  let te := vocab think_end_token
  let rs := vocab response_start_token
  let re := vocab response_end_token
  let tcs := vocab tool_call_start_token
  let tce := vocab tool_call_end_token
  let nl := vocab newline_token
  match ts, te with
  | some a, some b =>
      Except.ok
        { think_start_token_id := a
          think_end_token_id := b
          response_start_token_id := rs
          response_end_token_id := re
          tool_call_start_token_id := tcs
          tool_call_end_token_id := tce
          newline_token_id := nl }
  | _, _ =>
      Except.error
        "Ernie45 reasoning parser could not locate think start/end tokens in the tokenizer!"

/-- self.parser_token_ids (a list that may contain None entries). -/
def parserTokenIds (p : Ernie45Parser) : List (Option Nat) :=
  [some p.think_start_token_id, some p.think_end_token_id,
   p.response_start_token_id, p.response_end_token_id,
   p.tool_call_start_token_id, p.tool_call_end_token_id]

/-- Python `optional_id in token_ids` (None is never a member of an int list). -/
def optMem (o : Option Nat) (l : List Nat) : Bool :=
  l.any (fun t => some t == o)

/-- is_reasoning_end: membership of the think-end id. -/
def is_reasoning_end (p : Ernie45Parser) (input_ids : List Nat) : Bool :=
  input_ids.contains p.think_end_token_id

/-- extract_content_ids: suffix after the first think-end id, provided the id
occurs somewhere before the last position (Python input_ids[:-1]). -/
def extract_content_ids (p : Ernie45Parser) (input_ids : List Nat) : List Nat :=
  if (input_ids.take (input_ids.length - 1)).contains p.think_end_token_id then
    input_ids.drop (input_ids.indexOf p.think_end_token_id + 1)
  else []

/-- Streaming output record (the two fields of DeltaMessage the parser sets). -/
structure DeltaMessage where
  reasoning_content : Option (List Char)
  content : Option (List Char)
deriving DecidableEq

/-- The single-special-token suppression check at the top of
extract_reasoning_content_streaming (lines 103-108). -/
def isSuppressed (p : Ernie45Parser) (delta_token_ids : List Nat) : Bool :=
  match delta_token_ids with
  | [d] =>
      [some p.think_start_token_id, some p.think_end_token_id,
       p.response_start_token_id, p.response_end_token_id].contains (some d)
  | _ => false

/-- extract_reasoning_content_streaming (lines 83-160). previous_text,
current_text and current_token_ids are accepted but unused, as in the source. -/
def extract_reasoning_content_streaming (p : Ernie45Parser)
    (_previous_text _current_text : List Char) (delta_text : List Char)
    (previous_token_ids _current_token_ids delta_token_ids : List Nat) :
    Option DeltaMessage :=
  -- Skip single special tokens
  if isSuppressed p delta_token_ids then
    none
  else if delta_token_ids.contains p.think_end_token_id then
    -- </think> in delta with more tokens: extract reasoning content and content
    let think_end_index := pyFind thinkEndTok delta_text
    let reasoning_content := pySliceTo delta_text think_end_index
    let content0 := pySliceFrom delta_text (think_end_index + (thinkEndTok.length : Int))
    let content1 := lstripNl content0
    let response_start_idx := pyFind responseStartTok content1
    let response_end_idx := pyRFind responseEndTok content1
    let content2 :=
      if response_start_idx ≠ -1 then
        pySliceFrom content1 (response_start_idx + (responseStartTok.length : Int))
      else content1
    let content3 :=
      if response_end_idx ≠ -1 then pySliceTo content2 response_end_idx else content2
    some ⟨some reasoning_content, collapse content3⟩
  else if previous_token_ids.contains p.think_end_token_id then
    -- </think> in previous, thinking content ends
    let c0 := delta_text
    let c1 :=
      if optMem p.response_start_token_id delta_token_ids then
        let cs := lstripNl c0
        let response_start_idx := pyFind responseStartTok cs
        let cs2 := pySliceFrom cs (response_start_idx + (responseStartTok.length : Int))
        -- if have </response>, remove it
        let response_end_idx := pyRFind responseEndTok cs2
        if response_end_idx ≠ -1 then pySliceTo cs2 response_end_idx else cs2
      else if optMem p.response_end_token_id delta_token_ids then
        pySliceTo c0 (pyRFind responseEndTok c0)
      else c0
    -- remove \n after </think> or <response> or </response>
    let c2 :=
      if (match previous_token_ids.getLast? with
          | some t => (parserTokenIds p).contains (some t)
          | none => false)
         && (match delta_token_ids.head? with
             | some d => p.newline_token_id == some d
             | none => false)
      then lstripNl c1 else c1
    -- remove \n after </think>\n
    let c3 :=
      if (decide (previous_token_ids.length > 1)
          && (previous_token_ids.getD (previous_token_ids.length - 2) 0
                == p.think_end_token_id))
         && (match delta_token_ids.head? with
             | some d => p.newline_token_id == some d
             | none => false)
      then lstripNl c2 else c2
    some ⟨none, collapse c3⟩
  else
    -- no </think> in previous or delta, reasoning content continues
    some ⟨some delta_text, none⟩

/-- Step 1 of extract_reasoning_content (lines 180-182): drop everything up
to and including the first think-start marker, when present. -/
def stripThinkStart (s : List Char) : List Char :=
  let parts := pyPartition thinkStartTok s
  if parts.2.1 then parts.2.2 else parts.1

/-- The candidate content of batch extraction: everything after the first
think-end marker of the think-start-stripped string. -/
def batchCandidate (s : List Char) : List Char :=
  (pyPartition thinkEndTok (stripThinkStart s)).2.2

/-- The response-marker narrowing step of batch extraction (lines 191-199). -/
def narrowContent (content : List Char) : List Char :=
  if content.isEmpty then content
  else
    let start_idx := pyFind responseStartTok content
    let end_idx := pyRFind responseEndTok content
    -- Simultaneously existing and in the correct order
    if start_idx ≠ -1 ∧ end_idx ≠ -1 ∧ start_idx < end_idx then
      let c := pySlice content (start_idx + (responseStartTok.length : Int)) end_idx
      if litAt ['\n'] c then c.drop 1 else c
    else content

/-- extract_reasoning_content (lines 162-207). -/
def extract_reasoning_content (model_output : List Char) :
    Option (List Char) × Option (List Char) :=
  let so := stripThinkStart model_output
  -- We assume the reasoning content is always at the start.
  if containsSub thinkEndTok so = false then (some so, none)
  else
    (some (pyPartition thinkEndTok so).1,
     collapse (narrowContent (batchCandidate model_output)))

end Ernie45

namespace Ernie45

/-- The CROSSING content pipeline as the claim of C2 words it: strip leading
newlines, remove everything up to and including the first response-start
occurrence, then remove everything from the last response-end occurrence of
the string that remains onward. -/
def crossingContentClaimed (c : List Char) : List Char :=
  let cs := lstripNl c
  let t1 :=
    match findSub responseStartTok cs with
    | some i => cs.drop (i + responseStartTok.length)
    | none => cs
  match rfindSub responseEndTok t1 with
  | some j => t1.take j
  | none => t1

/-- The CROSSING content pipeline as the code computes it: both marker
indices are measured in the newline-stripped content before the
response-start removal, and the final truncation reuses that index
unadjusted, so up to the length of the removed prefix extra characters
survive at the end. -/
def crossingContentActual (c : List Char) : List Char :=
  let cs := lstripNl c
  let t1 :=
    match findSub responseStartTok cs with
    | some i => cs.drop (i + responseStartTok.length)
    | none => cs
  match rfindSub responseEndTok cs with
  | some j => t1.take j
  | none => t1

/-- A sample resolved parser with all seven sentinels present and distinct. -/
def sampleParser : Ernie45Parser :=
  { think_start_token_id := 1
    think_end_token_id := 2
    response_start_token_id := some 3
    response_end_token_id := some 4
    tool_call_start_token_id := some 5
    tool_call_end_token_id := some 6
    newline_token_id := some 7 }

end Ernie45

open Ernie45

/-- C1: the spec claims that for every split of a complete output into deltas
respecting the concatenation invariants, the concatenated streaming fragments
equal the batch result. The code breaks this on the output
"abc\n</think>\ndef" delivered as one single delta (previous history empty):
the streaming CROSSING branch strips all newlines after the think-end marker
and yields content "def", while batch extraction performs no such strip and
yields content "\ndef". This theorem evaluates both sides at that input. -/
theorem c1_streaming_batch_divergence :
    extract_reasoning_content_streaming sampleParser [] "abc\n</think>\ndef".toList
        "abc\n</think>\ndef".toList [] [10, 7, 2, 7, 11] [10, 7, 2, 7, 11] =
      some ⟨some "abc\n".toList, some "def".toList⟩ ∧
    extract_reasoning_content "abc\n</think>\ndef".toList =
      (some "abc\n".toList, some "\ndef".toList) ∧
    "def".toList ≠ "\ndef".toList := by
  refine ⟨by decide, by decide, by decide⟩

/-- C4 counterexample: batch extraction of "abc\n</think>\ndef" does not
return content "def" as the claim states. -/
theorem c4_scenario_b_counterexample :
    (extract_reasoning_content "abc\n</think>\ndef".toList).2 ≠ some "def".toList := by
  decide

/-- C4 amended: batch extraction of "abc\n</think>\ndef" returns reasoning
content "abc\n" and content "\ndef" — the newline after the think-end marker
is kept, because batch extraction only strips a leading newline inside the
response-marker narrowing branch, which does not fire here. -/
theorem c4_scenario_b_amended :
    extract_reasoning_content "abc\n</think>\ndef".toList =
      (some "abc\n".toList, some "\ndef".toList) := by
  decide

/-- C5 counterexample: batch extraction of
"abc\n</think>\n\n\n<tool_call>\nxyz\n</tool_call>\n" does not return the
claimed content with two leading newlines. -/
theorem c5_scenario_c_counterexample :
    (extract_reasoning_content "abc\n</think>\n\n\n<tool_call>\nxyz\n</tool_call>\n".toList).2 ≠
      some "\n\n<tool_call>\nxyz\n</tool_call>\n".toList := by
  decide

/-- C5 amended: batch extraction of
"abc\n</think>\n\n\n<tool_call>\nxyz\n</tool_call>\n" returns reasoning
content "abc\n" and content "\n\n\n<tool_call>\nxyz\n</tool_call>\n" — all
three newlines survive (no response markers match, so no narrowing and no
newline strip), and the tool-call markers are left untouched. -/
theorem c5_scenario_c_amended :
    extract_reasoning_content "abc\n</think>\n\n\n<tool_call>\nxyz\n</tool_call>\n".toList =
      (some "abc\n".toList, some "\n\n\n<tool_call>\nxyz\n</tool_call>\n".toList) := by
  decide

/-- C8: construction succeeds exactly when the vocabulary resolves both the
think-start and think-end markers; the optional response, tool-call and
newline markers never prevent construction. -/
theorem c8_construction (vocab : String → Option Nat) :
    (∃ p, ernieInit vocab = Except.ok p) ↔
      (vocab think_start_token).isSome ∧ (vocab think_end_token).isSome := by
  unfold ernieInit
  cases h1 : vocab think_start_token <;> cases h2 : vocab think_end_token <;> simp

namespace Ernie45

theorem pyIdx_natCast (n i : Nat) : pyIdx n (i : Int) = i := by
  simp [pyIdx]

theorem pySliceTo_natCast (s : List Char) (i : Nat) :
    pySliceTo s (i : Int) = s.take i := by
  simp [pySliceTo, pyIdx_natCast]

theorem pySliceFrom_natCast (s : List Char) (i : Nat) :
    pySliceFrom s (i : Int) = s.drop i := by
  simp [pySliceFrom, pyIdx_natCast]

theorem pySlice_natCast (s : List Char) (a b : Nat) :
    pySlice s (a : Int) (b : Int) = (s.take b).drop a := by
  simp [pySlice, pyIdx_natCast]

theorem pySliceFrom_natCast_add (s : List Char) (i j : Nat) :
    pySliceFrom s ((i : Int) + (j : Int)) = s.drop (i + j) := by
  rw [← Nat.cast_add]
  exact pySliceFrom_natCast s (i + j)

theorem natCast_ne_negOne (i : Nat) : (i : Int) ≠ -1 := by
  omega

theorem collapse_ne_nil {s : List Char} (h : s ≠ []) : collapse s = some s := by
  cases s with
  | nil => exact absurd rfl h
  | cons a t => rfl

end Ernie45

/-- C6 counterexample: a streaming delta of exactly one think-end token does
not produce an empty Output Record with both fields absent — the call returns
the distinct no-update signal instead. -/
theorem c6_suppression_counterexample :
    extract_reasoning_content_streaming sampleParser "a".toList "a</think>".toList
        "</think>".toList [9] [9, 2] [2] = none ∧
    (none : Option DeltaMessage) ≠ some ⟨none, none⟩ :=
  ⟨by decide, by decide⟩

/-- C6 amended: a streaming delta of exactly one token whose id is
think-start, think-end, response-start or response-end yields the explicit
no-update signal (None), which the caller can distinguish from an Output
Record with both fields absent; the bare marker is never echoed on either
channel. -/
theorem c6_suppression_amended (p : Ernie45Parser) (pt ct dt : List Char)
    (prev cur : List Nat) (d : Nat)
    (h : d = p.think_start_token_id ∨ d = p.think_end_token_id ∨
         p.response_start_token_id = some d ∨ p.response_end_token_id = some d) :
    extract_reasoning_content_streaming p pt ct dt prev cur [d] = none := by
  have hs : isSuppressed p [d] = true := by
    simp only [isSuppressed, List.contains_cons, List.contains_nil, Bool.or_false,
      beq_iff_eq, Option.some.injEq]
    rcases h with h | h | h | h
    · simp [h]
    · simp [h]
    · simp [h]
    · simp [h]
  simp [extract_reasoning_content_streaming, hs]

/-- C6 amended witness at a concrete suppressed delta. -/
theorem c6_suppression_amended_witness :
    extract_reasoning_content_streaming sampleParser [] "<think>".toList
        "<think>".toList [] [1] [1] = none :=
  c6_suppression_amended sampleParser [] "<think>".toList "<think>".toList
    [] [1] 1 (Or.inl rfl)

/-- C2 counterexample: in a CROSSING delta that carries both response
markers after the think-end marker, the returned content is not the result
of the sequential trimming pipeline the claim describes — the code truncates
with an index measured before the response-start removal, so marker
fragments survive. -/
theorem c2_crossing_counterexample :
    extract_reasoning_content_streaming sampleParser []
        "R</think><response>\ndef\n</response>".toList
        "R</think><response>\ndef\n</response>".toList
        [] [20, 2, 3, 7, 21, 7, 4] [20, 2, 3, 7, 21, 7, 4] =
      some ⟨some "R".toList, some "\ndef\n</response".toList⟩ ∧
    extract_reasoning_content_streaming sampleParser []
        "R</think><response>\ndef\n</response>".toList
        "R</think><response>\ndef\n</response>".toList
        [] [20, 2, 3, 7, 21, 7, 4] [20, 2, 3, 7, 21, 7, 4] ≠
      some ⟨some ("R</think><response>\ndef\n</response>".toList.take 1),
            collapse (crossingContentClaimed
              ("R</think><response>\ndef\n</response>".toList.drop
                (1 + thinkEndTok.length)))⟩ :=
  ⟨by decide, by decide⟩

/-- C2 amended: for every non-suppressed streaming call whose delta token
ids contain the think-end id and whose delta text contains the literal
think-end marker at first index k, the record carries reasoning_content
equal to the text before the marker and content equal to the actual
crossing pipeline (newline strip, response-start removal, then truncation
at the response-end index measured in the stripped content before that
removal), collapsed to absent when empty. -/
theorem c2_crossing_amended (p : Ernie45Parser) (pt ct dt : List Char)
    (prev cur delta : List Nat) (k : Nat)
    (hsup : isSuppressed p delta = false)
    (hmem : delta.contains p.think_end_token_id = true)
    (hfind : findSub thinkEndTok dt = some k) :
    extract_reasoning_content_streaming p pt ct dt prev cur delta =
      some ⟨some (dt.take k),
            collapse (crossingContentActual (dt.drop (k + thinkEndTok.length)))⟩ := by
  have hne : pyFind thinkEndTok dt = (k : Int) := by simp [pyFind, hfind]
  unfold extract_reasoning_content_streaming
  simp only [hsup, Bool.false_eq_true, if_false, hmem, if_true, hne]
  rw [pySliceTo_natCast, pySliceFrom_natCast_add]
  unfold crossingContentActual
  cases hrs : findSub responseStartTok (lstripNl (dt.drop (k + thinkEndTok.length))) with
  | none =>
      cases hre : rfindSub responseEndTok (lstripNl (dt.drop (k + thinkEndTok.length))) with
      | none => simp [pyFind, pyRFind, hrs, hre]
      | some j =>
          simp [pyFind, pyRFind, hrs, hre, natCast_ne_negOne, pySliceTo_natCast]
  | some i =>
      cases hre : rfindSub responseEndTok (lstripNl (dt.drop (k + thinkEndTok.length))) with
      | none =>
          simp [pyFind, pyRFind, hrs, hre, natCast_ne_negOne, pySliceFrom_natCast_add]
      | some j =>
          simp [pyFind, pyRFind, hrs, hre, natCast_ne_negOne, pySliceFrom_natCast_add,
            pySliceTo_natCast]

/-- C2 amended witness at the concrete crossing delta of the counterexample. -/
theorem c2_crossing_amended_witness :
    extract_reasoning_content_streaming sampleParser []
        "R</think><response>\ndef\n</response>".toList
        "R</think><response>\ndef\n</response>".toList
        [] [20, 2, 3, 7, 21, 7, 4] [20, 2, 3, 7, 21, 7, 4] =
      some ⟨some ("R</think><response>\ndef\n</response>".toList.take 1),
            collapse (crossingContentActual
              ("R</think><response>\ndef\n</response>".toList.drop
                (1 + thinkEndTok.length)))⟩ :=
  c2_crossing_amended sampleParser []
    "R</think><response>\ndef\n</response>".toList
    "R</think><response>\ndef\n</response>".toList
    [] [20, 2, 3, 7, 21, 7, 4] [20, 2, 3, 7, 21, 7, 4] 1
    (by decide) (by decide) (by decide)

/-- C10: a streaming delta of exactly one token carrying a tool-call marker
id is not suppressed (the suppression list holds only the four think and
response marker ids): its delta text is emitted as content when the
think-end id is already in the previous token ids (RESPONDING) and as
reasoning_content otherwise (THINKING). -/
theorem c10_tool_call_not_suppressed (p : Ernie45Parser) (pt ct dt : List Char)
    (prev cur : List Nat) (c : Nat)
    (hTool : p.tool_call_start_token_id = some c ∨ p.tool_call_end_token_id = some c)
    (h1 : c ≠ p.think_start_token_id) (h2 : c ≠ p.think_end_token_id)
    (h3 : p.response_start_token_id ≠ some c) (h4 : p.response_end_token_id ≠ some c)
    (h5 : p.newline_token_id ≠ some c) (h6 : dt ≠ []) :
    extract_reasoning_content_streaming p pt ct dt prev cur [c] =
      if prev.contains p.think_end_token_id then some ⟨none, some dt⟩
      else some ⟨some dt, none⟩ := by
  have hsup : isSuppressed p [c] = false := by
    simp [isSuppressed]
    exact ⟨h1, h2, fun h => h3 h.symm, fun h => h4 h.symm⟩
  have hte : ([c] : List Nat).contains p.think_end_token_id = false := by
    simp
    exact fun h => h2 h.symm
  have hrs : optMem p.response_start_token_id [c] = false := by
    simp [optMem]
    exact fun h => h3 h.symm
  have hre : optMem p.response_end_token_id [c] = false := by
    simp [optMem]
    exact fun h => h4 h.symm
  have hnl : (p.newline_token_id == some c) = false := by
    simp
    exact h5
  have hcol : collapse dt = some dt := collapse_ne_nil h6
  unfold extract_reasoning_content_streaming
  simp only [hsup, Bool.false_eq_true, if_false, hte, hrs, hre]
  cases hp : prev.contains p.think_end_token_id with
  | true => simp [hp, hnl, hcol]
  | false => simp [hp]

/-- C10 witness: with the sample parser, a single tool-call-start token delta
in the RESPONDING phase emits the literal marker text as content. -/
theorem c10_tool_call_not_suppressed_witness :
    extract_reasoning_content_streaming sampleParser "abc</think>".toList
        "abc</think><tool_call>".toList "<tool_call>".toList
        [10, 2] [10, 2, 5] [5] =
      if [10, 2].contains sampleParser.think_end_token_id then
        some ⟨none, some "<tool_call>".toList⟩
      else some ⟨some "<tool_call>".toList, none⟩ :=
  c10_tool_call_not_suppressed sampleParser "abc</think>".toList
    "abc</think><tool_call>".toList "<tool_call>".toList
    [10, 2] [10, 2, 5] 5 (Or.inl rfl) (by decide) (by decide) (by decide)
    (by decide) (by decide) (by decide)

namespace Ernie45

theorem pySlice_natCast_add (s : List Char) (a j b : Nat) :
    pySlice s ((a : Int) + (j : Int)) (b : Int) = (s.take b).drop (a + j) := by
  rw [← Nat.cast_add]
  exact pySlice_natCast s (a + j) b

theorem collapse_eq_none_iff (l : List Char) : collapse l = none ↔ l = [] := by
  cases l <;> simp [collapse]

/-- Decomposition of a list at the first occurrence of a member. -/
theorem indexOf_first_decomp {a : Nat} {l : List Nat} (h : a ∈ l) :
    ∃ pre, a ∉ pre ∧ l = pre ++ a :: l.drop (l.indexOf a + 1) := by
  induction l with
  | nil => cases h
  | cons b t ih =>
    rcases eq_or_ne b a with rfl | hb
    · exact ⟨[], by simp, by simp⟩
    · have ht : a ∈ t := by
        rcases List.mem_cons.mp h with rfl | ht
        · exact absurd rfl hb
        · exact ht
      obtain ⟨pre, hpre, heq⟩ := ih ht
      refine ⟨b :: pre, ?_, ?_⟩
      · intro hmem
        rcases List.mem_cons.mp hmem with rfl | hmem
        · exact hb rfl
        · exact hpre hmem
      · rw [List.indexOf_cons_ne _ hb]
        simp only [Nat.succ_eq_add_one, List.drop_succ_cons]
        simpa using heq

end Ernie45

/-- C3: in batch extraction (given the think-end marker is present after the
think-start strip), when the candidate content holds the first
response-start occurrence strictly before the last response-end occurrence,
the returned content is the substring strictly between the two markers with
one leading newline removed, collapsed to absent when empty; when the order
condition fails, the candidate is returned un-narrowed (and, the embedding
being total, no exception can arise). -/
theorem c3_batch_narrowing (s : List Char)
    (h : containsSub thinkEndTok (stripThinkStart s) = true) :
    (∀ si ei : Nat,
        findSub responseStartTok (batchCandidate s) = some si →
        rfindSub responseEndTok (batchCandidate s) = some ei →
        si < ei →
        (extract_reasoning_content s).2 =
          collapse
            (if litAt ['\n']
                (((batchCandidate s).take ei).drop (si + responseStartTok.length))
             then (((batchCandidate s).take ei).drop
                (si + responseStartTok.length)).drop 1
             else ((batchCandidate s).take ei).drop
                (si + responseStartTok.length))) ∧
    ((∀ si ei : Nat,
        ¬(findSub responseStartTok (batchCandidate s) = some si ∧
          rfindSub responseEndTok (batchCandidate s) = some ei ∧ si < ei)) →
      (extract_reasoning_content s).2 = collapse (batchCandidate s)) := by
  have h2 : (extract_reasoning_content s).2 =
      collapse (narrowContent (batchCandidate s)) := by
    unfold extract_reasoning_content
    simp [h]
  constructor
  · intro si ei hs he hlt
    rw [h2]
    congr 1
    unfold narrowContent
    have hne : ¬((batchCandidate s).isEmpty = true) := by
      intro hnil
      rw [List.isEmpty_iff] at hnil
      rw [hnil] at hs
      simp [findSub, responseStartTok, response_start_token] at hs
    rw [if_neg hne]
    simp only [pyFind, pyRFind, hs, he]
    rw [if_pos ⟨natCast_ne_negOne si, natCast_ne_negOne ei, by exact_mod_cast hlt⟩]
    rw [pySlice_natCast_add]
  · intro hn
    rw [h2]
    congr 1
    unfold narrowContent
    split
    · rfl
    · cases hfs : findSub responseStartTok (batchCandidate s) with
      | none => simp [pyFind, hfs]
      | some si =>
        cases hfe : rfindSub responseEndTok (batchCandidate s) with
        | none => simp [pyRFind, hfe]
        | some ei =>
          have hnlt : ¬(si < ei) := fun hlt => hn si ei ⟨hfs, hfe, hlt⟩
          simp [pyFind, pyRFind, hfs, hfe, hnlt]

/-- C3 witness at a concrete ordered-markers input. -/
theorem c3_batch_narrowing_witness :
    (extract_reasoning_content "q</think>x<response>\ndef</response>y".toList).2 =
      some "def".toList := by
  have he :=
    (c3_batch_narrowing "q</think>x<response>\ndef</response>y".toList (by decide)).1
      1 15 (by decide) (by decide) (by decide)
  rw [he]
  decide

/-- C7: whenever the input string contains the think-end marker, batch
extraction returns a present reasoning_content (possibly the empty string),
and its content side is absent exactly when the (possibly narrowed)
candidate content is empty. -/
theorem c7_batch_presence (s : List Char)
    (h : containsSub thinkEndTok s = true) :
    ((extract_reasoning_content s).1.isSome = true) ∧
    ((extract_reasoning_content s).2 = none ↔
      narrowContent (batchCandidate s) = []) := by
  unfold extract_reasoning_content
  cases hc : containsSub thinkEndTok (stripThinkStart s) with
  | false =>
      have hcand : batchCandidate s = [] := by
        unfold batchCandidate pyPartition
        cases hf : findSub thinkEndTok (stripThinkStart s) with
        | none => rfl
        | some i => simp [containsSub, hf] at hc
      constructor
      · simp [hc]
      · simp [hc, hcand, narrowContent]
  | true =>
      constructor
      · simp [hc]
      · simp only [hc, Bool.true_eq_false, if_false]
        exact collapse_eq_none_iff _

/-- C7 witness: output consisting of the bare think-end marker has reasoning
content preserved as the empty string and content absent. -/
theorem c7_batch_presence_witness :
    ((extract_reasoning_content "</think>".toList).1.isSome = true) ∧
    ((extract_reasoning_content "</think>".toList).2 = none ↔
      narrowContent (batchCandidate "</think>".toList) = []) :=
  c7_batch_presence "</think>".toList (by decide)

/-- C9: extract_content_ids returns the suffix strictly after the first
occurrence of the think-end id whenever that id occurs somewhere before the
final position, and the empty sequence when it does not (in particular when
its only occurrence is the very last token, or when it is absent). -/
theorem c9_extract_content_ids (p : Ernie45Parser) (ids : List Nat) :
    (p.think_end_token_id ∈ ids.dropLast →
      ∃ pre, p.think_end_token_id ∉ pre ∧
        ids = pre ++ p.think_end_token_id :: extract_content_ids p ids) ∧
    (p.think_end_token_id ∉ ids.dropLast → extract_content_ids p ids = []) := by
  constructor
  · intro h
    have hmem : p.think_end_token_id ∈ ids := by
      rw [List.dropLast_eq_take] at h
      exact List.take_subset _ _ h
    have hguard :
        (ids.take (ids.length - 1)).contains p.think_end_token_id = true := by
      rw [← List.dropLast_eq_take]
      simp [h]
    unfold extract_content_ids
    simp only [hguard, if_true]
    exact indexOf_first_decomp hmem
  · intro h
    have hguard :
        (ids.take (ids.length - 1)).contains p.think_end_token_id = false := by
      rw [← List.dropLast_eq_take]
      simpa using h
    unfold extract_content_ids
    simp only [hguard, Bool.false_eq_true, if_false]

/-- C9 witness: the think-end id (2 in the sample parser) occurring
mid-sequence decomposes the sequence with the function's result as the
strict suffix. -/
theorem c9_extract_content_ids_witness :
    ∃ pre, sampleParser.think_end_token_id ∉ pre ∧
      [5, 2, 6] = pre ++ sampleParser.think_end_token_id ::
        extract_content_ids sampleParser [5, 2, 6] :=
  (c9_extract_content_ids sampleParser [5, 2, 6]).1 (by decide)
